import Mathlib

/-!
Verification of the SPI interprocessor communication module
(src/clib/interProcComm.c): the master-side sender `spiSend` and the
slave-side interrupt state machine `_SPI1Interrupt`, together with the
triple-buffered receive pool `spiRxBuf` / `currentBuffer` / `lastBuffer`.

Machine integers: on the dsPIC33 target, `unsigned int` is 16 bits, so
unsigned subtraction and increment are taken modulo 65536 where they can
wrap.  The receive pool is modelled at the C type level as a total
function from (slot index, word offset) to stored word, so out-of-range
indices denote distinct abstract cells.
-/

/-- Modelled from the spec: the configuration constants `SPIBUFSIZE`
(payload words per frame), `BEGINSPI` and `ENDSPI` (the start / end
sentinel word values) are defined in apDefinitions.h, which is not part
of the sources; the spec fixes only that `BUFSIZE` is the frame length
and that the two sentinels lie outside the legal payload domain, so the
three values are carried as parameters. -/
structure SpiConfig where
  SPIBUFSIZE : Nat
  BEGINSPI : Nat
  ENDSPI : Nat

/-- Mutable state of the slave-side receiver: the static protocol cursor
`spiBufIdx` (interProcComm.c line 129), the pool bookkeeping
`currentBuffer`, `lastBuffer` (line 52) and the receive pool `spiRxBuf`
(line 51), modelled as a total function over slot and offset. -/
structure SpiState where
  spiBufIdx : Nat
  currentBuffer : Nat
  lastBuffer : Nat
  spiRxBuf : Nat → Nat → Nat

/-- Initial state: `spiBufIdx` starts at 1 (static initializer, line 129),
`currentBuffer = 0`, `lastBuffer = 2` (line 52), and the pool is
zero-initialized as a C global. -/
def initState : SpiState :=
  { spiBufIdx := 1, currentBuffer := 0, lastBuffer := 2, spiRxBuf := fun _ _ => 0 }

/-- Pointwise update of the receive pool at one (slot, offset) cell,
the embedding of the array store `spiRxBuf[b][o] = v`. -/
def setWord (f : Nat → Nat → Nat) (b o v : Nat) : Nat → Nat → Nat :=
  fun b' o' => if b' = b ∧ o' = o then v else f b' o'

/-- Slot rotation expression `currentBuffer > 2 ? 0 : currentBuffer + 1`
from interProcComm.c line 167. -/
def nextBuffer (c : Nat) : Nat :=
  if c > 2 then 0 else c + 1

/-- Word written to the transmit register by the interrupt handler
(interProcComm.c lines 134-151): the cursor itself while it is below
`SPIBUFSIZE`, the `ENDSPI` sentinel when it equals `SPIBUFSIZE`, and 0
above. -/
def spi1Output (cfg : SpiConfig) (spiBufIdx : Nat) : Nat :=
  if spiBufIdx < cfg.SPIBUFSIZE then spiBufIdx
  else if spiBufIdx = cfg.SPIBUFSIZE then cfg.ENDSPI
  else 0

/-- State transition of the interrupt handler (interProcComm.c lines
153-169) on the received word `dataRead`: a `BEGINSPI` word only
increments the cursor; any other word is stored at
`spiRxBuf[currentBuffer][(spiBufIdx++) - 2]` with the 16-bit unsigned
offset `(spiBufIdx - 2) mod 65536`, and when the incremented cursor
exceeds `SPIBUFSIZE` the cursor resets to 1, `lastBuffer` takes over
`currentBuffer`, and `currentBuffer` rotates via `nextBuffer`. -/
def spi1Next (cfg : SpiConfig) (s : SpiState) (dataRead : Nat) : SpiState :=
  if dataRead = cfg.BEGINSPI then
    { s with spiBufIdx := (s.spiBufIdx + 1) % 65536 }
  else
    let buf := setWord s.spiRxBuf s.currentBuffer ((s.spiBufIdx + 65534) % 65536) dataRead
    let idx := (s.spiBufIdx + 1) % 65536
    if idx > cfg.SPIBUFSIZE then
      { spiBufIdx := 1, currentBuffer := nextBuffer s.currentBuffer,
        lastBuffer := s.currentBuffer, spiRxBuf := buf }
    else
      { s with spiBufIdx := idx, spiRxBuf := buf }

/-- One invocation of `_SPI1Interrupt` (interProcComm.c lines 128-172):
the handler first writes the outgoing word, which depends only on the
entry value of the cursor, and then reads and processes `dataRead`.
Returns the transmitted word paired with the successor state. -/
def spi1Interrupt (cfg : SpiConfig) (s : SpiState) (dataRead : Nat) : Nat × SpiState :=
  (spi1Output cfg s.spiBufIdx, spi1Next cfg s dataRead)

/-- Handler states reachable from `initState` by any sequence of
received words. -/
inductive Reachable (cfg : SpiConfig) : SpiState → Prop where
  | init : Reachable cfg initState
  | step : ∀ s w, Reachable cfg s → Reachable cfg (spi1Next cfg s w)

/-- Run of the handler over a list of received words. -/
def runList (cfg : SpiConfig) (s : SpiState) (ws : List Nat) : SpiState :=
  ws.foldl (fun t w => spi1Next cfg t w) s

/-- Whether one handler invocation performs the frame-completion
rotation of interProcComm.c lines 162-168. -/
def stepRotates (cfg : SpiConfig) (s : SpiState) (w : Nat) : Bool :=
  if w = cfg.BEGINSPI then false
  else decide ((s.spiBufIdx + 1) % 65536 > cfg.SPIBUFSIZE)

/-- Number of frame completions (buffer rotations) performed while the
handler consumes a list of received words. -/
def countRotations (cfg : SpiConfig) : SpiState → List Nat → Nat
  | _, [] => 0
  | s, w :: ws =>
      (if stepRotates cfg s w then 1 else 0) + countRotations cfg (spi1Next cfg s w) ws

/-- Master-side `spiSend` loop (interProcComm.c lines 108-125), traced
against the exact list of response words its successive blocking reads
return (the first entry is the reply paired with the `BEGINSPI` round
trip).  Returns the list of payload words transmitted after `BEGINSPI`
when the loop returns having consumed exactly these responses, `none`
otherwise (the call is still blocked). -/
def spiSendResp (cfg : SpiConfig) (data2Send : Nat → Nat) : List Nat → Option (List Nat)
  | [] => none
  | rcvdIdx :: rest =>
      if rcvdIdx = cfg.ENDSPI then
        match rest with
        | [] => some []
        | _ :: _ => none
      else
        Option.map (fun l => data2Send rcvdIdx :: l) (spiSendResp cfg data2Send rest)

/-- Full transmit trace of `spiSend`: the `BEGINSPI` sentinel followed
by the payload words pushed by the request/response loop. -/
def spiSendTxWords (cfg : SpiConfig) (data2Send : Nat → Nat) (resp : List Nat) :
    Option (List Nat) :=
  Option.map (fun l => cfg.BEGINSPI :: l) (spiSendResp cfg data2Send resp)

/-- Combined state of the slave unit on the bus: the handler state plus
the word currently loaded in the slave transmit register (what the
master will read back on the next round trip).  `spiSlaveInit`
preloads 0x0000 (interProcComm.c line 76). -/
structure SysState where
  slave : SpiState
  tx : Nat

/-- Initial bus state after `spiSlaveInit`. -/
def sysInit : SysState :=
  { slave := initState, tx := 0 }

/-- Modelled from the spec: one SPI bus round trip (spec section 6 and
the duplex note in the source header).  The master shifts out word `w`
and simultaneously shifts in the slave's previously loaded transmit
word; the slave interrupt then fires once, emitting the transmit word
for the following round trip and consuming `w`.  Returns the word the
master reads paired with the new bus state. -/
def sysRoundTrip (cfg : SpiConfig) (st : SysState) (w : Nat) : Nat × SysState :=
  (st.tx, { slave := spi1Next cfg st.slave w, tx := spi1Output cfg st.slave.spiBufIdx })

/-- The request/response loop of `spiSend` (interProcComm.c lines
118-124) run against the slave model, with fuel bounding the number of
round trips; `none` means the sender is still spinning. -/
def spiSendLoop (cfg : SpiConfig) (data2Send : Nat → Nat) :
    Nat → Nat → SysState → Option SysState
  | 0, _, _ => none
  | Nat.succ fuel, rcvdIdx, st =>
      if rcvdIdx = cfg.ENDSPI then some st
      else
        let p := sysRoundTrip cfg st (data2Send rcvdIdx)
        spiSendLoop cfg data2Send fuel p.1 p.2

/-- One complete `spiSend` call (interProcComm.c lines 108-125) played
against the slave interrupt handler: transmit `BEGINSPI`, then loop on
the requested indices until `ENDSPI` is read back. -/
def spiSendSys (cfg : SpiConfig) (data2Send : Nat → Nat) (fuel : Nat) (st : SysState) :
    Option SysState :=
  let p := sysRoundTrip cfg st cfg.BEGINSPI
  spiSendLoop cfg data2Send fuel p.1 p.2

/-- Published frame after a run: the slot index designated by
`lastBuffer` together with that slot's `SPIBUFSIZE` words. -/
def publishedSlot (cfg : SpiConfig) (ost : Option SysState) : Option (Nat × List Nat) :=
  Option.map
    (fun st =>
      (st.slave.lastBuffer,
        (List.range cfg.SPIBUFSIZE).map (st.slave.spiRxBuf st.slave.lastBuffer)))
    ost

/-- Concrete configuration for the scenario fixed by the spec
(`BUFSIZE = 4`), with sentinel words outside the payload domain as the
spec requires. -/
def cfg4 : SpiConfig :=
  { SPIBUFSIZE := 4, BEGINSPI := 65535, ENDSPI := 65534 }

/-- The scenario frame [10, 20, 30, 40] as the sender's `data2Send`
array. -/
def frame4 : Nat → Nat :=
  fun i => List.getD [10, 20, 30, 40] i 0

lemma nextBuffer_ne (c : Nat) : nextBuffer c ≠ c := by
  unfold nextBuffer
  split_ifs with h <;> omega

lemma spi1Next_store (cfg : SpiConfig) (s : SpiState) (w : Nat) (hw : w ≠ cfg.BEGINSPI) :
    (spi1Next cfg s w).spiRxBuf s.currentBuffer ((s.spiBufIdx + 65534) % 65536) = w := by
  unfold spi1Next
  rw [if_neg hw]
  by_cases h : (s.spiBufIdx + 1) % 65536 > cfg.SPIBUFSIZE
  · simp [h, setWord]
  · simp [h, setWord]

lemma spi1Next_pool_ne (cfg : SpiConfig) (s : SpiState) (w b o : Nat)
    (hb : b ≠ s.currentBuffer) :
    (spi1Next cfg s w).spiRxBuf b o = s.spiRxBuf b o := by
  unfold spi1Next
  by_cases hw : w = cfg.BEGINSPI
  · simp [hw]
  · rw [if_neg hw]
    by_cases h : (s.spiBufIdx + 1) % 65536 > cfg.SPIBUFSIZE
    · simp [h, setWord, hb]
    · simp [h, setWord, hb]

lemma spi1Next_buffers (cfg : SpiConfig) (s : SpiState) (w : Nat) :
    ((spi1Next cfg s w).currentBuffer = s.currentBuffer ∧
      (spi1Next cfg s w).lastBuffer = s.lastBuffer) ∨
    ((spi1Next cfg s w).lastBuffer = s.currentBuffer ∧
      (spi1Next cfg s w).currentBuffer = nextBuffer s.currentBuffer) := by
  unfold spi1Next
  by_cases hw : w = cfg.BEGINSPI
  · simp [hw]
  · rw [if_neg hw]
    by_cases h : (s.spiBufIdx + 1) % 65536 > cfg.SPIBUFSIZE
    · simp [h]
    · simp [h]

lemma reach_last_ne_current (cfg : SpiConfig) (s : SpiState) (h : Reachable cfg s) :
    s.lastBuffer ≠ s.currentBuffer := by
  induction h with
  | init => decide
  | step s w hr ih =>
      rcases spi1Next_buffers cfg s w with ⟨hc, hl⟩ | ⟨hl, hc⟩
      · rw [hl, hc]; exact ih
      · rw [hl, hc]; exact fun he => nextBuffer_ne s.currentBuffer he.symm

/-- C9: the word the interrupt handler transmits is a function of the
entry state only: two invocations from the same state transmit the same
word whatever words they receive (the emit precedes the read of the
incoming word in `_SPI1Interrupt`). -/
theorem c9_output_independent_of_input (cfg : SpiConfig) (s : SpiState) (w w' : Nat) :
    (spi1Interrupt cfg s w).1 = (spi1Interrupt cfg s w').1 := rfl

/-- C2: at the reachable handler state with cursor `spiBufIdx = 1`, any
received word other than `BEGINSPI` is stored at the unsigned 16-bit
offset `(1 - 2) mod 65536 = 65535`, which is not below `SPIBUFSIZE`, so
the store lands outside the bounds of the current frame slot. -/
theorem c2_underflow_store_out_of_bounds (cfg : SpiConfig) (w : Nat)
    (hS : cfg.SPIBUFSIZE < 65536) (hw : w ≠ cfg.BEGINSPI) :
    ∃ s : SpiState, Reachable cfg s ∧ s.spiBufIdx = 1 ∧
      ¬ (s.spiBufIdx + 65534) % 65536 < cfg.SPIBUFSIZE ∧
      (spi1Next cfg s w).spiRxBuf s.currentBuffer ((s.spiBufIdx + 65534) % 65536) = w := by
  refine ⟨initState, Reachable.init, rfl, ?_, spi1Next_store cfg initState w hw⟩
  have h : (initState.spiBufIdx + 65534) % 65536 = 65535 := by decide
  rw [h]
  omega

/-- C2 witness: the out-of-slot store is exhibited at the concrete
configuration `cfg4` and received word 42. -/
theorem c2_underflow_store_out_of_bounds_witness :
    ∃ s : SpiState, Reachable cfg4 s ∧ s.spiBufIdx = 1 ∧
      ¬ (s.spiBufIdx + 65534) % 65536 < cfg4.SPIBUFSIZE ∧
      (spi1Next cfg4 s 42).spiRxBuf s.currentBuffer ((s.spiBufIdx + 65534) % 65536) = 42 :=
  c2_underflow_store_out_of_bounds cfg4 42 (by decide) (by decide)

/-- Input stream driving three consecutive frame completions at
`BUFSIZE = 4`: each frame is the `BEGINSPI` echo followed by three
payload words. -/
def c3Inputs : List Nat :=
  [65535, 11, 12, 13, 65535, 21, 22, 23, 65535, 31, 32, 33]

/-- C3: refuted as stated; the code rotates `currentBuffer` with period
4, not 3.  After exactly three frame completions `currentBuffer` is 3,
not `3 mod 3 = 0`, and it has escaped the slot range `0..2` of the
3-slot pool `spiRxBuf`. -/
theorem c3_rotation_escapes_pool :
    countRotations cfg4 initState c3Inputs = 3 ∧
    (runList cfg4 initState c3Inputs).currentBuffer = 3 ∧
    (3 : Nat) % 3 = 0 ∧
    (runList cfg4 initState c3Inputs).currentBuffer ≠ 3 % 3 ∧
    ¬ (runList cfg4 initState c3Inputs).currentBuffer ≤ 2 := by decide

/-- C4 counterexample: with `BUFSIZE = 4`, the claim puts cursor value 4
in the Requesting band `[1, BUFSIZE]` (transmit 4) and `BUFSIZE + 1 = 5`
in the Signaling-End state (transmit `ENDSPI`), but the handler
transmits `ENDSPI` at cursor 4 and 0 at cursor 5. -/
theorem c4_output_shifted_counterexample :
    1 ≤ 4 ∧ 4 ≤ cfg4.SPIBUFSIZE ∧
    spi1Output cfg4 4 = cfg4.ENDSPI ∧ spi1Output cfg4 4 ≠ 4 ∧
    spi1Output cfg4 (cfg4.SPIBUFSIZE + 1) = 0 ∧
    spi1Output cfg4 (cfg4.SPIBUFSIZE + 1) ≠ cfg4.ENDSPI := by decide

/-- C4 amended: the word the handler transmits is `spiBufIdx` itself
whenever `spiBufIdx` is in `[1, BUFSIZE - 1]`, the `ENDSPI` sentinel
exactly when `spiBufIdx` equals `BUFSIZE`, and 0 whenever `spiBufIdx`
is greater than `BUFSIZE` (for sentinels outside the index range, as
the spec requires). -/
theorem c4_output_cases (cfg : SpiConfig) (idx : Nat)
    (hEnd : cfg.SPIBUFSIZE ≤ cfg.ENDSPI) (hEnd0 : cfg.ENDSPI ≠ 0) :
    (1 ≤ idx → idx + 1 ≤ cfg.SPIBUFSIZE → spi1Output cfg idx = idx) ∧
    (spi1Output cfg idx = cfg.ENDSPI ↔ idx = cfg.SPIBUFSIZE) ∧
    (cfg.SPIBUFSIZE < idx → spi1Output cfg idx = 0) := by
  unfold spi1Output
  refine ⟨fun h1 h2 => ?_, ?_, fun h => ?_⟩
  · rw [if_pos (by omega)]
  · split_ifs with ha hb
    · constructor <;> intro he <;> omega
    · simp [hb]
    · constructor <;> intro he <;> omega
  · rw [if_neg (by omega), if_neg (by omega)]

/-- C4 amended witness: the three output cases evaluated at the
concrete configuration `cfg4` and cursor value 2. -/
theorem c4_output_cases_witness :
    (1 ≤ 2 → 2 + 1 ≤ cfg4.SPIBUFSIZE → spi1Output cfg4 2 = 2) ∧
    (spi1Output cfg4 2 = cfg4.ENDSPI ↔ 2 = cfg4.SPIBUFSIZE) ∧
    (cfg4.SPIBUFSIZE < 2 → spi1Output cfg4 2 = 0) :=
  c4_output_cases cfg4 2 (by decide) (by decide)

/-- C5 counterexample: the handler invocation at reachable cursor 4
(reached from the initial state by the `BEGINSPI` echo and two payload
words) stores the payload word 30, and although the incremented cursor
5 does not exceed `BUFSIZE + 1 = 5`, the rotation happens: the cursor
resets to 1 and `lastBuffer` is reassigned to `currentBuffer`. -/
theorem c5_rotation_without_claimed_trigger :
    (30 : Nat) ≠ cfg4.BEGINSPI ∧
    (runList cfg4 initState [65535, 10, 20]).spiBufIdx = 4 ∧
    ¬ (runList cfg4 initState [65535, 10, 20]).spiBufIdx + 1 > cfg4.SPIBUFSIZE + 1 ∧
    (spi1Next cfg4 (runList cfg4 initState [65535, 10, 20]) 30).spiBufIdx = 1 ∧
    (spi1Next cfg4 (runList cfg4 initState [65535, 10, 20]) 30).lastBuffer =
      (runList cfg4 initState [65535, 10, 20]).currentBuffer ∧
    (spi1Next cfg4 (runList cfg4 initState [65535, 10, 20]) 30).lastBuffer ≠
      (runList cfg4 initState [65535, 10, 20]).lastBuffer := by decide

/-- C5 amended: in every handler invocation that stores a payload word
(received word not `BEGINSPI`), the cursor reset to 1, the assignment
`lastBuffer = currentBuffer` and the advance of `currentBuffer` all
happen exactly when the incremented (16-bit) cursor exceeds `BUFSIZE`,
and never otherwise. -/
theorem c5_rotation_iff_exceeds_bufsize (cfg : SpiConfig) (s : SpiState) (w : Nat)
    (hw : w ≠ cfg.BEGINSPI) :
    ((s.spiBufIdx + 1) % 65536 > cfg.SPIBUFSIZE →
      (spi1Next cfg s w).spiBufIdx = 1 ∧
      (spi1Next cfg s w).lastBuffer = s.currentBuffer ∧
      (spi1Next cfg s w).currentBuffer = nextBuffer s.currentBuffer) ∧
    (¬ (s.spiBufIdx + 1) % 65536 > cfg.SPIBUFSIZE →
      (spi1Next cfg s w).spiBufIdx = (s.spiBufIdx + 1) % 65536 ∧
      (spi1Next cfg s w).lastBuffer = s.lastBuffer ∧
      (spi1Next cfg s w).currentBuffer = s.currentBuffer) := by
  unfold spi1Next
  rw [if_neg hw]
  constructor <;> intro h <;> simp [h]

/-- C5 amended witness: the rotation dichotomy evaluated at the
concrete configuration `cfg4`, the initial state, and payload word
10: the incremented cursor is 2, so no rotation effect occurs. -/
theorem c5_rotation_iff_exceeds_bufsize_witness :
    ((initState.spiBufIdx + 1) % 65536 > cfg4.SPIBUFSIZE →
      (spi1Next cfg4 initState 10).spiBufIdx = 1 ∧
      (spi1Next cfg4 initState 10).lastBuffer = initState.currentBuffer ∧
      (spi1Next cfg4 initState 10).currentBuffer = nextBuffer initState.currentBuffer) ∧
    (¬ (initState.spiBufIdx + 1) % 65536 > cfg4.SPIBUFSIZE →
      (spi1Next cfg4 initState 10).spiBufIdx = (initState.spiBufIdx + 1) % 65536 ∧
      (spi1Next cfg4 initState 10).lastBuffer = initState.lastBuffer ∧
      (spi1Next cfg4 initState 10).currentBuffer = initState.currentBuffer) :=
  c5_rotation_iff_exceeds_bufsize cfg4 initState 10 (by decide)

/-- C1: refuted on the code; evidence for the defect.  Sending the
frame [10, 20, 30, 40] with `BUFSIZE = 4` to a receiver starting in its
initial state, one interrupt per round trip, terminates with
`lastBuffer = 0`, but the published slot holds [10, 20, 30, 0]: the
handler requests only indices 1..3 before signaling `ENDSPI`, and the
final frame word 40 is stored at wrapped offset 65535 outside the slot
after the rotation, so the slot's last word keeps its prior contents. -/
theorem c1_published_slot_misses_last_word :
    publishedSlot cfg4 (spiSendSys cfg4 frame4 10 sysInit) = some (0, [10, 20, 30, 0]) ∧
    frame4 3 = 40 ∧
    publishedSlot cfg4 (spiSendSys cfg4 frame4 10 sysInit) ≠ some (0, [10, 20, 30, 40]) := by
  decide

/-- C6: refuted on the code; evidence for the defect.  In the
`BUFSIZE = 4` exchange of frame [10, 20, 30, 40] from the initial
state, the slot published as `lastBuffer` holds [10, 20, 30, 0] —
neither the slot's prior contents [0, 0, 0, 0] nor the transmitted
frame — so a consumer reading `lastBuffer` after completion observes a
partial mix and not a complete frame.  Moreover the exchange's final
store, performed at reachable cursor 1 on the bus event right after the
rotation, lands at unsigned offset 65535 of the new current slot,
outside the declared bounds of `spiRxBuf[3][SPIBUFSIZE]` (undefined
behavior in C; on the 16-bit target that address resolves to the last
word of the just-published `lastBuffer` slot), so the single-writer
discipline over the published slot is not established either. -/
theorem c6_published_slot_partial_mix :
    publishedSlot cfg4 (spiSendSys cfg4 frame4 10 sysInit) = some (0, [10, 20, 30, 0]) ∧
    [10, 20, 30, 0] ≠ [0, 0, 0, 0] ∧
    [10, 20, 30, 0] ≠ [10, 20, 30, 40] ∧
    Option.map (fun st => st.slave.spiRxBuf 1 65535) (spiSendSys cfg4 frame4 10 sysInit) =
      some 40 ∧
    ¬ (65535 : Nat) < cfg4.SPIBUFSIZE := by decide

/-- C8 counterexample: with `BUFSIZE = 4`, six consecutive `BEGINSPI`
words drive the cursor from its initial value 1 to 7, which lies
outside the claimed range `[1, BUFSIZE + 2] = [1, 6]`. -/
theorem c8_cursor_leaves_claimed_range :
    (runList cfg4 initState (List.replicate 6 65535)).spiBufIdx = 7 ∧
    ¬ (runList cfg4 initState (List.replicate 6 65535)).spiBufIdx ≤ cfg4.SPIBUFSIZE + 2 := by
  decide

/-- Guard on an input stream: `BEGINSPI` is only ever received while
the cursor is at most `SPIBUFSIZE + 1` (as happens in every well-formed
frame exchange, where the echo arrives at cursor 1). -/
def beginGuard (cfg : SpiConfig) : SpiState → List Nat → Bool
  | _, [] => true
  | s, w :: ws =>
      if w = cfg.BEGINSPI ∧ cfg.SPIBUFSIZE + 1 < s.spiBufIdx then false
      else beginGuard cfg (spi1Next cfg s w) ws

lemma spi1Next_idx_bound (cfg : SpiConfig) (s : SpiState) (w : Nat)
    (hS : cfg.SPIBUFSIZE + 3 < 65536)
    (h1 : 1 ≤ s.spiBufIdx) (h2 : s.spiBufIdx ≤ cfg.SPIBUFSIZE + 2)
    (hg : w = cfg.BEGINSPI → s.spiBufIdx ≤ cfg.SPIBUFSIZE + 1) :
    1 ≤ (spi1Next cfg s w).spiBufIdx ∧
      (spi1Next cfg s w).spiBufIdx ≤ cfg.SPIBUFSIZE + 2 := by
  unfold spi1Next
  by_cases hw : w = cfg.BEGINSPI
  · have hb := hg hw
    rw [if_pos hw]
    have hm : (s.spiBufIdx + 1) % 65536 = s.spiBufIdx + 1 := Nat.mod_eq_of_lt (by omega)
    simp only [hm]
    omega
  · rw [if_neg hw]
    have hm : (s.spiBufIdx + 1) % 65536 = s.spiBufIdx + 1 := Nat.mod_eq_of_lt (by omega)
    by_cases h : (s.spiBufIdx + 1) % 65536 > cfg.SPIBUFSIZE
    · simp [h]
    · rw [hm] at h
      simp only [hm, if_neg h]
      omega

/-- C8 amended: for every sequence of received words in which
`BEGINSPI` only arrives while the cursor is at most `BUFSIZE + 1`, the
cursor observed between handler invocations stays in the range 1 to
`BUFSIZE + 2` inclusive (for any frame size fitting the 16-bit
cursor). -/
theorem c8_guarded_cursor_range (cfg : SpiConfig) (ws : List Nat) (s : SpiState)
    (hS : cfg.SPIBUFSIZE + 3 < 65536)
    (h1 : 1 ≤ s.spiBufIdx) (h2 : s.spiBufIdx ≤ cfg.SPIBUFSIZE + 2)
    (hg : beginGuard cfg s ws = true) :
    1 ≤ (runList cfg s ws).spiBufIdx ∧
      (runList cfg s ws).spiBufIdx ≤ cfg.SPIBUFSIZE + 2 := by
  induction ws generalizing s with
  | nil => exact ⟨h1, h2⟩
  | cons w ws ih =>
      unfold beginGuard at hg
      split_ifs at hg with hc
      push_neg at hc
      have hstep := spi1Next_idx_bound cfg s w hS h1 h2 hc
      exact ih (spi1Next cfg s w) hstep.1 hstep.2 hg

/-- C8 amended witness: the guarded range invariant evaluated on the
concrete exchange `[BEGINSPI, 9, 9, 9]` from the initial state under
`cfg4`. -/
theorem c8_guarded_cursor_range_witness :
    1 ≤ (runList cfg4 initState [65535, 9, 9, 9]).spiBufIdx ∧
      (runList cfg4 initState [65535, 9, 9, 9]).spiBufIdx ≤ cfg4.SPIBUFSIZE + 2 :=
  c8_guarded_cursor_range cfg4 [65535, 9, 9, 9] initState (by decide) (by decide)
    (by decide) (by decide)

lemma spi1Next_no_rotation (cfg : SpiConfig) (s : SpiState) (w : Nat)
    (h : stepRotates cfg s w = false) :
    (spi1Next cfg s w).currentBuffer = s.currentBuffer ∧
    (spi1Next cfg s w).lastBuffer = s.lastBuffer := by
  unfold stepRotates at h
  unfold spi1Next
  by_cases hw : w = cfg.BEGINSPI
  · simp [hw]
  · rw [if_neg hw] at h ⊢
    simp only [decide_eq_false_iff_not] at h
    simp [h]

lemma run_no_rotation (cfg : SpiConfig) (ws : List Nat) :
    ∀ s : SpiState, countRotations cfg s ws = 0 →
    (runList cfg s ws).currentBuffer = s.currentBuffer ∧
    (runList cfg s ws).lastBuffer = s.lastBuffer ∧
    ∀ b o, b ≠ s.currentBuffer → (runList cfg s ws).spiRxBuf b o = s.spiRxBuf b o := by
  induction ws with
  | nil => exact fun s _ => ⟨rfl, rfl, fun b o _ => rfl⟩
  | cons w ws ih =>
      intro s h
      unfold countRotations at h
      cases hsr : stepRotates cfg s w with
      | true => rw [hsr] at h; simp at h
      | false =>
          rw [hsr] at h
          simp only [if_neg Bool.false_ne_true, Nat.zero_add] at h
          have hrec := ih (spi1Next cfg s w) h
          have hstep := spi1Next_no_rotation cfg s w hsr
          have hrun : runList cfg s (w :: ws) = runList cfg (spi1Next cfg s w) ws := rfl
          refine ⟨?_, ?_, ?_⟩
          · rw [hrun, hrec.1, hstep.1]
          · rw [hrun, hrec.2.1, hstep.2]
          · intro b o hb
            have hb' : b ≠ (spi1Next cfg s w).currentBuffer := by
              rw [hstep.1]; exact hb
            rw [hrun, hrec.2.2 b o hb', spi1Next_pool_ne cfg s w b o hb]

/-- C10: initially `currentBuffer = 0` and `lastBuffer = 2`; over any
input sequence during which no frame completes, the designation
`lastBuffer = 2` persists and every cell of slot 2 still holds its
initial (zero) contents — the consumer sees only the pool's initial
contents, with nothing marking that no frame has arrived. -/
theorem c10_initial_lastBuffer_unwritten (cfg : SpiConfig) (ws : List Nat) (o : Nat)
    (h : countRotations cfg initState ws = 0) :
    initState.currentBuffer = 0 ∧ initState.lastBuffer = 2 ∧
    (runList cfg initState ws).lastBuffer = 2 ∧
    (runList cfg initState ws).spiRxBuf 2 o = 0 := by
  obtain ⟨hc, hl, hp⟩ := run_no_rotation cfg ws initState h
  exact ⟨rfl, rfl, hl, hp 2 o (by decide)⟩

/-- C10 witness: evaluated under `cfg4` on the rotation-free exchange
`[BEGINSPI, 10]` at offset 0. -/
theorem c10_initial_lastBuffer_unwritten_witness :
    initState.currentBuffer = 0 ∧ initState.lastBuffer = 2 ∧
    (runList cfg4 initState [65535, 10]).lastBuffer = 2 ∧
    (runList cfg4 initState [65535, 10]).spiRxBuf 2 0 = 0 :=
  c10_initial_lastBuffer_unwritten cfg4 [65535, 10] 0 (by decide)

lemma spiSendResp_eq_some (cfg : SpiConfig) (d : Nat → Nat) :
    ∀ (resp l : List Nat), spiSendResp cfg d resp = some l ↔
      ∃ idxs : List Nat, resp = idxs ++ [cfg.ENDSPI] ∧
        (∀ r ∈ idxs, r ≠ cfg.ENDSPI) ∧ l = idxs.map d := by
  intro resp
  induction resp with
  | nil =>
      intro l
      constructor
      · intro h; simp [spiSendResp] at h
      · rintro ⟨idxs, h, -, -⟩
        exact absurd h.symm (List.append_ne_nil_of_right_ne_nil idxs (by simp))
  | cons r rest ih =>
      intro l
      unfold spiSendResp
      by_cases hr : r = cfg.ENDSPI
      · rw [if_pos hr]
        cases rest with
        | nil =>
            constructor
            · intro h
              refine ⟨[], by simp [hr], by simp, ?_⟩
              simpa using h.symm
            · rintro ⟨idxs, heq, hall, hl⟩
              cases idxs with
              | nil => simp at heq hl; simp [hl]
              | cons a idxs => simp at heq
        | cons x xs =>
            constructor
            · intro h; exact absurd h (by simp)
            · rintro ⟨idxs, heq, hall, hl⟩
              cases idxs with
              | nil => simp at heq
              | cons a idxs =>
                  simp at heq
                  exact absurd (heq.1 ▸ hall a (by simp)) (by simp [hr])
      · rw [if_neg hr]
        constructor
        · intro h
          rw [Option.map_eq_some'] at h
          obtain ⟨l', hl', rfl⟩ := h
          obtain ⟨idxs, heq, hall, hl⟩ := (ih l').mp hl'
          refine ⟨r :: idxs, by simp [heq], ?_, by simp [hl]⟩
          intro x hx
          rcases List.mem_cons.mp hx with rfl | hx
          · exact hr
          · exact hall x hx
        · rintro ⟨idxs, heq, hall, hl⟩
          cases idxs with
          | nil => simp at heq; exact absurd heq.1 hr
          | cons a idxs =>
              simp at heq
              obtain ⟨rfl, heq2⟩ := heq
              rw [Option.map_eq_some']
              refine ⟨idxs.map d, ?_, by simp [hl]⟩
              exact (ih (idxs.map d)).mpr ⟨idxs, heq2, fun x hx => hall x (by simp [hx]), rfl⟩

/-- C7: `spiSend` first transmits `BEGINSPI`; as long as the word read
back differs from `ENDSPI` it transmits `data2Send[rcvdIdx]` for the
most recently read index and blocks for the next response, and it
returns exactly when `ENDSPI` is read, having consumed one response per
transmitted word: its transmit trace on a response list is `some out`
precisely when the responses are non-`ENDSPI` indices followed by one
final `ENDSPI`, with `out` the `BEGINSPI` sentinel followed by the
requested words, and then `out` has one word per response. -/
theorem c7_spiSend_request_response (cfg : SpiConfig) (data2Send : Nat → Nat)
    (resp out : List Nat) :
    (spiSendTxWords cfg data2Send resp = some out ↔
      ∃ idxs : List Nat, resp = idxs ++ [cfg.ENDSPI] ∧
        (∀ r ∈ idxs, r ≠ cfg.ENDSPI) ∧
        out = cfg.BEGINSPI :: idxs.map data2Send) ∧
    (spiSendTxWords cfg data2Send resp = some out → out.length = resp.length) := by
  have hiff : spiSendTxWords cfg data2Send resp = some out ↔
      ∃ idxs : List Nat, resp = idxs ++ [cfg.ENDSPI] ∧
        (∀ r ∈ idxs, r ≠ cfg.ENDSPI) ∧
        out = cfg.BEGINSPI :: idxs.map data2Send := by
    unfold spiSendTxWords
    rw [Option.map_eq_some']
    constructor
    · rintro ⟨l, hl, rfl⟩
      obtain ⟨idxs, heq, hall, rfl⟩ := (spiSendResp_eq_some cfg data2Send resp l).mp hl
      exact ⟨idxs, heq, hall, rfl⟩
    · rintro ⟨idxs, heq, hall, rfl⟩
      exact ⟨idxs.map data2Send,
        (spiSendResp_eq_some cfg data2Send resp (idxs.map data2Send)).mpr
          ⟨idxs, heq, hall, rfl⟩, rfl⟩
  refine ⟨hiff, fun h => ?_⟩
  obtain ⟨idxs, heq, -, rfl⟩ := hiff.mp h
  simp [heq]
